import Mathlib

/-!
Shallow embedding of the nurikabe puzzle core (src/main.rs, src/grid.rs):
the cell-state domain and transitions, the grid container with its parsing
constructors, the clamped accessor, the win check, and the toggle/reset
session operations.  Rust panics (unwrap, out-of-range indexing, integer
parse failures) are modelled by Option results.
-/

/-- The value domain of a single grid cell (enum CellState in src/main.rs).
The payload of Value is an i8 in the source; it is modelled as an Int,
with range checks done where the source parses. -/
inductive CellState where
  | Blank
  | Island
  | River
  | Value (n : Int)
  deriving DecidableEq

/-- The player-toggle transition (CellState::next in src/main.rs). -/
def CellState.next : CellState → CellState
  | .Blank => .River
  | .Island => .Blank
  | .River => .Island
  | s => s

/-- Per-cell comparison used by the win check (CellState::is_same). -/
def CellState.is_same (self other : CellState) : Bool :=
  match self with
  | .Blank | .Value _ | .Island => decide (other ≠ CellState.River)
  | .River => decide (other = CellState.River)

/-- Grid dimensions (struct GridSize in src/grid.rs). -/
structure GridSize where
  rows : Nat
  cols : Nat
  deriving DecidableEq

/-- The grid: dimensions plus the Vec<Vec<CellState>> container
(struct Grid in src/grid.rs). -/
structure Grid where
  grid_size : GridSize
  grid : List (List CellState)
  deriving DecidableEq

/-- Split a character sequence at every occurrence of sep, keeping empty
segments (the single-separator case of Rust str::split). -/
def splitOnChar (sep : Char) : List Char → List (List Char)
  | [] => [[]]
  | c :: rest =>
    match splitOnChar sep rest with
    | [] => [[]]
    | seg :: segs => if c = sep then [] :: seg :: segs else (c :: seg) :: segs

/-- Rust strips a carriage return that sits at the end of a line produced by
splitting at a newline. -/
def stripCR (l : List Char) : List Char :=
  if l.getLast? = some '\r' then l.dropLast else l

/-- Helper for rustLines: every segment except the last was followed by a
newline (so its trailing CR is stripped); a final empty segment means the
input ended with a newline and produces no line. -/
def rustLinesAux : List (List Char) → List (List Char)
  | [] => []
  | [last] => if last = [] then [] else [last]
  | p :: rest => stripCR p :: rustLinesAux rest

/-- Model of Rust str::lines — split at newlines, optional final line
ending, trailing carriage returns stripped from terminated lines. -/
def rustLines (s : String) : List (List Char) :=
  rustLinesAux (splitOnChar '\n' s.data)

/-- Digit run to number, most significant first. -/
def digitsToNat (l : List Char) : Nat :=
  l.foldl (fun acc c => acc * 10 + (c.toNat - 48)) 0

/-- Model of str::parse::<usize>: optional plus sign, one or more ASCII
digits, value at most 2^64 - 1; None models the unwrap panic path. -/
def parseUsize (s : List Char) : Option Nat :=
  let t := match s with
    | c :: r => if c = '+' then r else c :: r
    | [] => []
  if t ≠ [] ∧ t.all Char.isDigit then
    if digitsToNat t < 2 ^ 64 then some (digitsToNat t) else none
  else none

/-- Model of str::parse::<i8>: optional sign, digits, value in
[-128, 127]. -/
def parseI8 (s : List Char) : Option Int :=
  let neg : Bool := match s with
    | c :: _ => decide (c = '-')
    | [] => false
  let t := match s with
    | c :: r => if c = '-' ∨ c = '+' then r else c :: r
    | [] => []
  if t ≠ [] ∧ t.all Char.isDigit then
    let v : Int := if neg then -(digitsToNat t : Int) else (digitsToNat t : Int)
    if -128 ≤ v ∧ v ≤ 127 then some v else none
  else none

/-- Rust cast of an i8 value to usize (sign extension, i.e. value mod
2^64). -/
def usizeOfInt (x : Int) : Nat :=
  (x % (2 ^ 64 : Int)).toNat

/-- Indexed assignment grid[r][c] = v on the nested container; None models
the out-of-range panic. -/
def setCell (g : List (List CellState)) (r c : Nat) (v : CellState) :
    Option (List (List CellState)) :=
  match g.get? r with
  | none => none
  | some row => if c < row.length then some (g.set r (row.set c v)) else none

/-- The list of row lengths of a container, used to state that operations
keep the container's shape. -/
def shapeOf (g : List (List CellState)) : List Nat :=
  g.map List.length

/-- Body of the clue loop in Grid::from_puzzle_string: parse the
size,row,col triple of one line and store Value(size) at the decremented,
usize-cast coordinates. -/
def puzzleClueStep (acc : List (List CellState)) (line : List Char) :
    Option (List (List CellState)) := do
  let t := splitOnChar ',' line
  let size ← (t.get? 0).bind parseI8
  let row ← (t.get? 1).bind parseI8
  let col ← (t.get? 2).bind parseI8
  setCell acc (usizeOfInt (row - 1)) (usizeOfInt (col - 1)) (CellState.Value size)

/-- Spec-side reading of one clue line, used to state C5: the
comma-separated triple size,row,col of the claim. -/
def specParseTriple (line : List Char) : Option (Int × Int × Int) := do
  let t := splitOnChar ',' line
  let size ← (t.get? 0).bind parseI8
  let row ← (t.get? 1).bind parseI8
  let col ← (t.get? 2).bind parseI8
  pure (size, row, col)

/-- Spec-side placement of one clue, used to state C5: place Value(size)
at the zero-based coordinates (row-1, col-1). -/
def specPlaceClue (acc : List (List CellState)) (t : Int × Int × Int) :
    List (List CellState) :=
  acc.set (t.2.1 - 1).toNat
    ((acc.getD (t.2.1 - 1).toNat []).set (t.2.2 - 1).toNat (CellState.Value t.1))

/-- Grid::from_puzzle_string (src/grid.rs): skip the header line, read
cols,rows from the second line, skip two more lines, then place Value(size)
at (row-1, col-1) for each size,row,col clue triple. -/
def Grid.from_puzzle_string (s : String) : Option Grid := do
  let lines := rustLines s
  let dims ← lines.get? 1
  let nums := splitOnChar ',' dims
  let cols ← (nums.get? 0).bind parseUsize
  let rows ← (nums.get? 1).bind parseUsize
  let init : List (List CellState) := List.replicate rows (List.replicate cols CellState.Blank)
  let filled ← (lines.drop 4).foldlM puzzleClueStep init
  pure (Grid.mk (GridSize.mk rows cols) filled)

/-- Character decoding used by Grid::from_solution_string: ASCII digit to
Value, letter x to River, anything else to Island. -/
def charToCell (c : Char) : CellState :=
  if c.isDigit then CellState.Value (Int.ofNat (c.toNat - 48))
  else if c = 'x' then CellState.River
  else CellState.Island

/-- Grid::from_solution_string (src/grid.rs): one line per row, one
character per cell; rows from the line count, cols from the first line
(None models the unwrap panic on empty input). -/
def Grid.from_solution_string (s : String) : Option Grid := do
  let rows := (rustLines s).map (fun line => line.map charToCell)
  let first ← rows.get? 0
  pure (Grid.mk (GridSize.mk rows.length first.length) rows)

/-- Grid::get (src/grid.rs): both coordinates are clamped to [0, rows] and
[0, cols] — the upper bound itself is inside the clamp range — and the
clamped index is then unwrapped; None models the panic when the clamped
index still falls outside the container. -/
def Grid.get (g : Grid) (row col : Nat) : Option CellState :=
  (g.grid.get? (min row g.grid_size.rows)).bind
    (fun r => r.get? (min col g.grid_size.cols))

/-- Grid::set (src/grid.rs): unconditional indexed store; None models the
out-of-range panic. -/
def Grid.set (g : Grid) (row col : Nat) (v : CellState) : Option Grid :=
  (setCell g.grid row col v).map (fun gr => Grid.mk g.grid_size gr)

/-- Unclamped cell lookup, the view the ECS tile components give of the
grid (each spawned tile mirrors grid[r][c]). -/
def rawGet (g : Grid) (row col : Nat) : Option CellState :=
  (g.grid.get? row).bind (fun r => r.get? col)

/-- The row-major coordinate order walked by Grid::check. -/
def rowMajor (sz : GridSize) : List (Nat × Nat) :=
  (List.range sz.rows).flatMap (fun r => (List.range sz.cols).map (fun c => (r, c)))

/-- The coordinate loop of Grid::check: stop with false at the first pair
of cells that is_same rejects. -/
def checkLoop (g s : Grid) : List (Nat × Nat) → Option Bool
  | [] => some true
  | p :: rest => do
    let a ← g.get p.1 p.2
    let b ← s.get p.1 p.2
    if a.is_same b then checkLoop g s rest else some false

/-- Grid::check (src/grid.rs): false on a size mismatch, otherwise walk
every coordinate in row-major order comparing cells with is_same. -/
def Grid.check (g s : Grid) : Option Bool :=
  if g.grid_size = s.grid_size then checkLoop g s (rowMajor g.grid_size) else some false

/-- The per-cell match of reset_puzzle (src/main.rs): togglable states go
back to Blank, clue cells stay. -/
def resetCell : CellState → CellState
  | .Blank | .Island | .River => .Blank
  | .Value n => .Value n

/-- Body of the inner column loop of reset_puzzle: read the cell with
Grid::get and store resetCell of it back with Grid::set. -/
def resetStep (row : Nat) (acc2 : Grid) (col : Nat) : Option Grid := do
  let tile ← acc2.get row col
  acc2.set row col (resetCell tile)

/-- One outer-loop iteration of reset_puzzle: reset every column of one
row. -/
def resetRow (acc : Grid) (row : Nat) : Option Grid :=
  (List.range acc.grid_size.cols).foldlM (resetStep row) acc

/-- reset_puzzle (src/main.rs): the nested row/col loop that reads each
cell with Grid::get and stores resetCell of it back with Grid::set. -/
def reset_puzzle (g : Grid) : Option Grid :=
  (List.range g.grid_size.rows).foldlM resetRow g

/-- toggle_cell (src/main.rs): the tile query finds the spawned cell at the
cursor (one exists exactly for in-range coordinates and mirrors the grid),
writes its CellState::next back to the grid, or does nothing when no tile
matches. -/
def toggle_cell (g : Grid) (row col : Nat) : Option Grid :=
  match rawGet g row col with
  | some cur => g.set row col cur.next
  | none => some g

/-- A player intent forwarded to the session. -/
inductive Op where
  | toggle (row col : Nat)
  | reset
  deriving DecidableEq

/-- One session step. -/
def applyOp (g : Grid) : Op → Option Grid
  | .toggle r c => toggle_cell g r c
  | .reset => reset_puzzle g

/-- A whole sequence of toggle/reset intents. -/
def runOps (g : Grid) : List Op → Option Grid
  | [] => some g
  | op :: rest => (applyOp g op).bind (fun g2 => runOps g2 rest)

/-- Rectangularity of the container together with agreeing dimensions. -/
def Grid.wf (g : Grid) : Prop :=
  g.grid.length = g.grid_size.rows ∧ ∀ row ∈ g.grid, row.length = g.grid_size.cols

instance (g : Grid) : Decidable g.wf :=
  inferInstanceAs (Decidable (_ ∧ _))

lemma list_set_self {α : Type} (l : List α) (n : Nat) (a : α)
    (h : l[n]? = some a) : l.set n a = l := by
  apply List.ext_getElem?
  intro m
  rw [List.getElem?_set]
  split
  · next heq =>
    subst heq
    obtain ⟨hlt, _⟩ := List.getElem?_eq_some.mp h
    rw [if_pos hlt]
    exact h.symm
  · rfl

lemma setCell_some_spec {g g' : List (List CellState)} {r c : Nat} {v : CellState}
    (h : setCell g r c v = some g') :
    ∃ row, g[r]? = some row ∧ c < row.length ∧ g' = g.set r (row.set c v) := by
  cases hr : g[r]? with
  | none => simp [setCell, List.get?_eq_getElem?, hr] at h
  | some row =>
    simp only [setCell, List.get?_eq_getElem?, hr] at h
    by_cases hc : c < row.length
    · rw [if_pos hc] at h
      exact ⟨row, rfl, hc, (Option.some.inj h).symm⟩
    · rw [if_neg hc] at h
      cases h

lemma setCell_eq_set {g : List (List CellState)} {r c : Nat} {row : List CellState}
    (hr : g[r]? = some row) (hc : c < row.length) (v : CellState) :
    setCell g r c v = some (g.set r (row.set c v)) := by
  simp [setCell, List.get?_eq_getElem?, hr, hc]

lemma setCell_shapeOf {g g' : List (List CellState)} {r c : Nat} {v : CellState}
    (h : setCell g r c v = some g') : shapeOf g' = shapeOf g := by
  obtain ⟨row, hr, hc, rfl⟩ := setCell_some_spec h
  unfold shapeOf
  rw [List.map_set, List.length_set]
  apply list_set_self
  rw [List.getElem?_map, hr]
  rfl

lemma puzzleClueStep_shapeOf {acc g' : List (List CellState)} {line : List Char}
    (h : puzzleClueStep acc line = some g') : shapeOf g' = shapeOf acc := by
  simp only [puzzleClueStep, Option.bind_eq_bind, Option.bind_eq_some] at h
  obtain ⟨size, _, row, _, col, _, hset⟩ := h
  exact setCell_shapeOf hset

lemma foldlM_clueStep_shapeOf (lines : List (List Char)) :
    ∀ acc g', List.foldlM puzzleClueStep acc lines = some g' →
      shapeOf g' = shapeOf acc := by
  induction lines with
  | nil =>
    intro acc g' h
    simp only [List.foldlM_nil, pure] at h
    cases h
    rfl
  | cons l ls ih =>
    intro acc g' h
    rw [List.foldlM_cons] at h
    cases hstep : puzzleClueStep acc l with
    | none => rw [hstep] at h; cases h
    | some mid =>
      rw [hstep] at h
      simp only [Option.bind_eq_bind, Option.some_bind] at h
      exact (ih mid g' h).trans (puzzleClueStep_shapeOf hstep)

lemma shape_rect {c : List (List CellState)} {rows cols : Nat}
    (h : shapeOf c = List.replicate rows cols) :
    c.length = rows ∧ ∀ row ∈ c, row.length = cols := by
  constructor
  · have hl := congrArg List.length h
    simpa [shapeOf] using hl
  · intro row hrow
    obtain ⟨n, hn⟩ := List.mem_iff_getElem?.mp hrow
    have h2 : (shapeOf c)[n]? = some row.length := by
      simp [shapeOf, List.getElem?_map, hn]
    rw [h, List.getElem?_replicate] at h2
    split at h2
    · exact (Option.some.inj h2).symm
    · cases h2

lemma from_solution_spec {s : String} {first : List Char} {rest : List (List Char)}
    (h : rustLines s = first :: rest) :
    Grid.from_solution_string s =
      some (Grid.mk (GridSize.mk (first :: rest).length first.length)
        ((first :: rest).map (fun line => line.map charToCell))) := by
  simp [Grid.from_solution_string, h]

lemma from_puzzle_wf {s : String} {g : Grid}
    (h : Grid.from_puzzle_string s = some g) : g.wf := by
  simp only [Grid.from_puzzle_string, Option.bind_eq_bind, Option.bind_eq_some,
    Option.some.injEq] at h
  obtain ⟨dims, hdims, cols, hcols, rows, hrows, filled, hfold, hg⟩ := h
  have hshape : shapeOf filled =
      shapeOf (List.replicate rows (List.replicate cols CellState.Blank)) :=
    foldlM_clueStep_shapeOf _ _ _ hfold
  have hshape2 : shapeOf filled = List.replicate rows cols := by
    rw [hshape]
    simp [shapeOf]
  obtain ⟨hlen, hrows2⟩ := shape_rect hshape2
  have hge := Option.some.inj hg
  subst hge
  exact ⟨hlen, hrows2⟩

lemma wf_getRow {g : Grid} (hwf : g.wf) {r : Nat} (hr : r < g.grid_size.rows) :
    ∃ row, g.grid[r]? = some row ∧ row.length = g.grid_size.cols := by
  have hlen : r < g.grid.length := by rw [hwf.1]; exact hr
  refine ⟨g.grid[r], List.getElem?_eq_getElem hlen, ?_⟩
  exact hwf.2 _ (List.getElem_mem hlen)

lemma get_eq_rawGet {g : Grid} {r c : Nat} (hr : r < g.grid_size.rows)
    (hc : c < g.grid_size.cols) : g.get r c = rawGet g r c := by
  simp only [Grid.get, rawGet]
  rw [Nat.min_eq_left (Nat.le_of_lt hr), Nat.min_eq_left (Nat.le_of_lt hc)]

lemma rawGet_some_of_wf {g : Grid} (hwf : g.wf) {r c : Nat}
    (hr : r < g.grid_size.rows) (hc : c < g.grid_size.cols) :
    ∃ st, rawGet g r c = some st := by
  obtain ⟨row, hrow, hlen⟩ := wf_getRow hwf hr
  have hcl : c < row.length := by rw [hlen]; exact hc
  exact ⟨row[c], by simp [rawGet, List.get?_eq_getElem?, hrow,
    List.getElem?_eq_getElem hcl]⟩

lemma rawGet_oob {g : Grid} (hwf : g.wf) {r c : Nat}
    (h : ¬(r < g.grid_size.rows ∧ c < g.grid_size.cols)) :
    rawGet g r c = none := by
  simp only [rawGet, List.get?_eq_getElem?]
  by_cases hr : r < g.grid_size.rows
  · obtain ⟨row, hrow, hlen⟩ := wf_getRow hwf hr
    have hc : ¬ c < row.length := by
      rw [hlen]
      exact fun hc => h ⟨hr, hc⟩
    simp [hrow, List.getElem?_len_le (Nat.le_of_not_lt hc)]
  · have : g.grid.length ≤ r := by rw [hwf.1]; exact Nat.le_of_not_lt hr
    simp [List.getElem?_len_le this]

lemma wf_transfer {g g' : Grid} (hsz : g'.grid_size = g.grid_size)
    (hsh : shapeOf g'.grid = shapeOf g.grid) (hwf : g.wf) : g'.wf := by
  constructor
  · have hl := congrArg List.length hsh
    simp only [shapeOf, List.length_map] at hl
    rw [hl, hsz, hwf.1]
  · intro row hrow
    obtain ⟨n, hn⟩ := List.mem_iff_getElem?.mp hrow
    have h2 : (shapeOf g'.grid)[n]? = some row.length := by
      simp [shapeOf, List.getElem?_map, hn]
    rw [hsh] at h2
    simp only [shapeOf, List.getElem?_map] at h2
    cases hrow2 : g.grid[n]? with
    | none => rw [hrow2] at h2; cases h2
    | some row2 =>
      rw [hrow2] at h2
      have hlen : row2.length = row.length := Option.some.inj h2
      rw [hsz, ← hlen]
      exact hwf.2 row2 (List.getElem?_mem hrow2)

lemma grid_ext {g1 g2 : Grid} (hs : g1.grid_size = g2.grid_size)
    (h1 : g1.wf) (h2 : g2.wf) (h : ∀ r c, rawGet g1 r c = rawGet g2 r c) :
    g1 = g2 := by
  obtain ⟨sz1, c1⟩ := g1
  obtain ⟨sz2, c2⟩ := g2
  cases hs
  congr 1
  apply List.ext_getElem?
  intro n
  by_cases hn : n < sz1.rows
  · obtain ⟨row1, hrow1, hlen1⟩ := wf_getRow h1 hn
    obtain ⟨row2, hrow2, hlen2⟩ := wf_getRow h2 hn
    simp only at hrow1 hrow2
    rw [hrow1, hrow2]
    congr 1
    apply List.ext_getElem?
    intro m
    have hm := h n m
    simp only [rawGet, List.get?_eq_getElem?, hrow1, hrow2,
      Option.some_bind] at hm
    exact hm
  · have e1 : c1.length ≤ n := by rw [h1.1]; exact Nat.le_of_not_lt hn
    have e2 : c2.length ≤ n := by rw [h2.1]; exact Nat.le_of_not_lt hn
    rw [List.getElem?_len_le e1, List.getElem?_len_le e2]

lemma grid_set_spec {g g' : Grid} {r c : Nat} {v : CellState}
    (h : g.set r c v = some g') :
    g'.grid_size = g.grid_size ∧ shapeOf g'.grid = shapeOf g.grid ∧
      ∀ i j, rawGet g' i j =
        if i = r ∧ j = c then some v else rawGet g i j := by
  cases hsc : setCell g.grid r c v with
  | none => simp [Grid.set, hsc] at h
  | some gr =>
    simp only [Grid.set, hsc, Option.map_some] at h
    have hge := Option.some.inj h
    subst hge
    obtain ⟨row, hrow, hc, hgr⟩ := setCell_some_spec hsc
    subst hgr
    refine ⟨rfl, setCell_shapeOf hsc, ?_⟩
    intro i j
    simp only [rawGet, List.get?_eq_getElem?]
    rw [List.getElem?_set]
    have hrl : r < g.grid.length := (List.getElem?_eq_some.mp hrow).1
    by_cases hi : r = i
    · subst hi
      rw [if_pos rfl, if_pos hrl, Option.some_bind, List.getElem?_set, hrow,
        Option.some_bind]
      by_cases hj : j = c
      · subst hj
        rw [if_pos rfl, if_pos hc, if_pos ⟨rfl, rfl⟩]
      · rw [if_neg (fun hcj => hj hcj.symm), if_neg (fun hh => hj hh.2)]
    · rw [if_neg hi, if_neg (fun hh => hi hh.1.symm)]

lemma grid_set_total {g : Grid} {r c : Nat} {row : List CellState}
    (hr : g.grid[r]? = some row) (hc : c < row.length) (v : CellState) :
    g.set r c v = some (Grid.mk g.grid_size (g.grid.set r (row.set c v))) := by
  simp [Grid.set, setCell_eq_set hr hc]

lemma parseI8_range {l : List Char} {v : Int} (h : parseI8 l = some v) :
    -128 ≤ v ∧ v ≤ 127 := by
  simp only [parseI8] at h
  split_ifs at h <;> cases h <;> assumption

lemma usizeOfInt_toNat {x : Int} (h0 : 0 ≤ x) (h1 : x < 2 ^ 64) :
    usizeOfInt x = x.toNat := by
  unfold usizeOfInt
  rw [Int.emod_eq_of_lt h0 h1]

lemma shape_row {acc : List (List CellState)} {rows cols i : Nat}
    (h : shapeOf acc = List.replicate rows cols) (hi : i < rows) :
    ∃ rowList, acc[i]? = some rowList ∧ rowList.length = cols := by
  have h2 : (shapeOf acc)[i]? = some cols := by
    rw [h, List.getElem?_replicate, if_pos hi]
  simp only [shapeOf, List.getElem?_map] at h2
  cases hrow : acc[i]? with
  | none => rw [hrow] at h2; cases h2
  | some rowList =>
    rw [hrow] at h2
    exact ⟨rowList, rfl, Option.some.inj h2⟩

lemma puzzleClueStep_eq_of_parse {acc : List (List CellState)}
    {line : List Char} {size row col : Int} {rows cols : Nat}
    (hp : specParseTriple line = some (size, row, col))
    (hshape : shapeOf acc = List.replicate rows cols)
    (hr1 : 1 ≤ row) (hr2 : row ≤ (rows : Int))
    (hc1 : 1 ≤ col) (hc2 : col ≤ (cols : Int)) :
    puzzleClueStep acc line = some (specPlaceClue acc (size, row, col)) ∧
    shapeOf (specPlaceClue acc (size, row, col)) =
      List.replicate rows cols := by
  simp only [specParseTriple, Option.bind_eq_bind, Option.bind_eq_some,
    Option.pure_def, Option.some.injEq, Prod.mk.injEq] at hp
  obtain ⟨size3, ⟨sTok, hsTok, hsParse⟩, row3, ⟨rTok, hrTok, hrParse⟩,
    col3, ⟨cTok, hcTok, hcParse⟩, rfl, rfl, rfl⟩ := hp
  obtain ⟨hrlo, hrhi⟩ := parseI8_range hrParse
  obtain ⟨hclo, hchi⟩ := parseI8_range hcParse
  have h64 : ((2 : Int) ^ 64) = 18446744073709551616 := by norm_num
  have hcast_r : usizeOfInt (row3 - 1) = (row3 - 1).toNat :=
    usizeOfInt_toNat (by omega) (by rw [h64]; omega)
  have hcast_c : usizeOfInt (col3 - 1) = (col3 - 1).toNat :=
    usizeOfInt_toNat (by omega) (by rw [h64]; omega)
  have hlt_r : (row3 - 1).toNat < rows := by omega
  obtain ⟨rowList, hrowL, hrowLen⟩ := shape_row hshape hlt_r
  have hlt_c : (col3 - 1).toNat < rowList.length := by
    rw [hrowLen]
    omega
  have hset := setCell_eq_set hrowL hlt_c (CellState.Value size3)
  have hgetD : acc.getD (row3 - 1).toNat [] = rowList := by
    rw [List.getD_eq_getElem?_getD, hrowL]
    rfl
  have hplace : specPlaceClue acc (size3, row3, col3) =
      acc.set (row3 - 1).toNat
        (rowList.set (col3 - 1).toNat (CellState.Value size3)) := by
    rw [specPlaceClue, hgetD]
  constructor
  · rw [hplace]
    simp only [puzzleClueStep, Option.bind_eq_bind, hsTok, hrTok, hcTok,
      Option.some_bind, hsParse, hrParse, hcParse, hcast_r, hcast_c]
    exact hset
  · rw [hplace, ← hshape]
    exact setCell_shapeOf hset

lemma foldlM_clueStep_eq_placeClues {rows cols : Nat} :
    ∀ (L : List (List Char)) (triples : List (Int × Int × Int))
      (acc : List (List CellState)),
      L.map specParseTriple = triples.map some →
      shapeOf acc = List.replicate rows cols →
      (∀ t ∈ triples, 1 ≤ t.2.1 ∧ t.2.1 ≤ (rows : Int) ∧
        1 ≤ t.2.2 ∧ t.2.2 ≤ (cols : Int)) →
      List.foldlM puzzleClueStep acc L =
        some (triples.foldl specPlaceClue acc) := by
  intro L
  induction L with
  | nil =>
    intro triples acc hmap _ _
    have ht : triples = [] := by
      cases triples with
      | nil => rfl
      | cons t ts => cases hmap
    subst ht
    simp [List.foldlM_nil]
  | cons line rest ih =>
    intro triples acc hmap hshape hbounds
    cases triples with
    | nil => cases hmap
    | cons t ts =>
      simp only [List.map_cons, List.cons.injEq] at hmap
      obtain ⟨hline, hrest⟩ := hmap
      obtain ⟨size, row, col⟩ := t
      obtain ⟨hb1, hb2, hb3, hb4⟩ :=
        hbounds (size, row, col) (List.mem_cons_self _ ts)
      obtain ⟨hstep, hshape2⟩ :=
        puzzleClueStep_eq_of_parse hline hshape hb1 hb2 hb3 hb4
      rw [List.foldlM_cons, hstep]
      simp only [Option.bind_eq_bind, Option.some_bind]
      rw [ih ts _ hrest hshape2
        (fun q hq => hbounds q (List.mem_cons_of_mem _ hq))]
      rw [List.foldl_cons]

lemma resetCell_idem (t : CellState) : resetCell (resetCell t) = resetCell t := by
  cases t <;> rfl

lemma option_map_resetCell_idem (o : Option CellState) :
    (o.map resetCell).map resetCell = o.map resetCell := by
  cases o with
  | none => rfl
  | some t => simp [resetCell_idem]

lemma resetCell_comp : resetCell ∘ resetCell = resetCell :=
  funext resetCell_idem

lemma resetStep_spec {sz : GridSize} {G : Grid} (hG : G.grid_size = sz)
    (hwf : G.wf) {r c : Nat} (hr : r < sz.rows) (hc : c < sz.cols) :
    ∃ G', resetStep r G c = some G' ∧ G'.grid_size = sz ∧ G'.wf ∧
      ∀ i j, rawGet G' i j =
        if i = r ∧ j = c then (rawGet G i j).map resetCell
        else rawGet G i j := by
  subst hG
  obtain ⟨row, hrow, hlen⟩ := wf_getRow hwf hr
  have hcl : c < row.length := by rw [hlen]; exact hc
  have hraw : rawGet G r c = some row[c] := by
    simp [rawGet, List.get?_eq_getElem?, hrow, List.getElem?_eq_getElem hcl]
  have hget : G.get r c = some row[c] := (get_eq_rawGet hr hc).trans hraw
  have hset := grid_set_total hrow hcl (resetCell row[c])
  obtain ⟨hsz, hsh, hpt⟩ := grid_set_spec hset
  refine ⟨_, ?_, hsz, wf_transfer hsz hsh hwf, ?_⟩
  · simp only [resetStep, hget, Option.bind_eq_bind, Option.some_bind]
    exact hset
  · intro i j
    rw [hpt i j]
    by_cases hij : i = r ∧ j = c
    · obtain ⟨rfl, rfl⟩ := hij
      rw [if_pos ⟨rfl, rfl⟩, if_pos ⟨rfl, rfl⟩, hraw]
      rfl
    · rw [if_neg hij, if_neg hij]

lemma resetCols_spec {sz : GridSize} {r : Nat} (hr : r < sz.rows)
    (L : List Nat) :
    (∀ c ∈ L, c < sz.cols) → ∀ G, G.grid_size = sz → G.wf →
    ∃ G', L.foldlM (resetStep r) G = some G' ∧ G'.grid_size = sz ∧ G'.wf ∧
      ∀ i j, rawGet G' i j =
        if i = r ∧ j ∈ L then (rawGet G i j).map resetCell
        else rawGet G i j := by
  induction L with
  | nil =>
    intro _ G hG hwf
    exact ⟨G, by simp [List.foldlM_nil], hG, hwf, by intro i j; simp⟩
  | cons c0 rest ih =>
    intro hL G hG hwf
    obtain ⟨G1, hstep, hG1, hwf1, hpt1⟩ :=
      resetStep_spec hG hwf hr (hL c0 (List.mem_cons_self c0 rest))
    obtain ⟨G', hfold, hG', hwf', hpt'⟩ :=
      ih (fun c hcm => hL c (List.mem_cons_of_mem _ hcm)) G1 hG1 hwf1
    refine ⟨G', ?_, hG', hwf', ?_⟩
    · rw [List.foldlM_cons, hstep]
      simpa using hfold
    · intro i j
      rw [hpt' i j, hpt1 i j]
      by_cases h1 : i = r <;> by_cases h2 : j = c0 <;> by_cases h3 : j ∈ rest <;>
        simp [h1, h2, h3, List.mem_cons, Option.map_map, resetCell_comp]

lemma resetRow_spec {sz : GridSize} {G : Grid} (hG : G.grid_size = sz)
    (hwf : G.wf) {r : Nat} (hr : r < sz.rows) :
    ∃ G', resetRow G r = some G' ∧ G'.grid_size = sz ∧ G'.wf ∧
      ∀ i j, rawGet G' i j =
        if i = r then (rawGet G i j).map resetCell else rawGet G i j := by
  obtain ⟨G', hfold, hG', hwf', hpt⟩ :=
    resetCols_spec hr (List.range sz.cols)
      (fun c hcm => List.mem_range.mp hcm) G hG hwf
  refine ⟨G', ?_, hG', hwf', ?_⟩
  · unfold resetRow
    rw [hG]
    exact hfold
  · intro i j
    rw [hpt i j]
    by_cases h1 : i = r
    · subst h1
      by_cases h2 : j < sz.cols
      · simp [h2, List.mem_range]
      · have hnone : rawGet G i j = none :=
          rawGet_oob hwf (fun hh => h2 (by rw [← hG]; exact hh.2))
        simp [h2, List.mem_range, hnone]
    · simp [h1, List.mem_range]

lemma resetRows_spec {sz : GridSize} (L : List Nat) :
    (∀ r ∈ L, r < sz.rows) → ∀ G, G.grid_size = sz → G.wf →
    ∃ G', L.foldlM resetRow G = some G' ∧ G'.grid_size = sz ∧ G'.wf ∧
      ∀ i j, rawGet G' i j =
        if i ∈ L then (rawGet G i j).map resetCell else rawGet G i j := by
  induction L with
  | nil =>
    intro _ G hG hwf
    exact ⟨G, by simp [List.foldlM_nil], hG, hwf, by intro i j; simp⟩
  | cons r0 rest ih =>
    intro hL G hG hwf
    obtain ⟨G1, hstep, hG1, hwf1, hpt1⟩ :=
      resetRow_spec hG hwf (hL r0 (List.mem_cons_self r0 rest))
    obtain ⟨G', hfold, hG', hwf', hpt'⟩ :=
      ih (fun r hrm => hL r (List.mem_cons_of_mem _ hrm)) G1 hG1 hwf1
    refine ⟨G', ?_, hG', hwf', ?_⟩
    · rw [List.foldlM_cons, hstep]
      simpa using hfold
    · intro i j
      rw [hpt' i j, hpt1 i j]
      by_cases h1 : i = r0 <;> by_cases h2 : i ∈ rest <;>
        simp [h1, h2, List.mem_cons, Option.map_map, resetCell_comp]

lemma reset_puzzle_spec {g : Grid} (hwf : g.wf) :
    ∃ g', reset_puzzle g = some g' ∧ g'.grid_size = g.grid_size ∧ g'.wf ∧
      ∀ i j, rawGet g' i j = (rawGet g i j).map resetCell := by
  obtain ⟨g', hfold, hsz, hwf', hpt⟩ :=
    resetRows_spec (List.range g.grid_size.rows)
      (fun r hrm => List.mem_range.mp hrm) g rfl hwf
  refine ⟨g', hfold, hsz, hwf', ?_⟩
  intro i j
  rw [hpt i j]
  by_cases h1 : i < g.grid_size.rows
  · simp [List.mem_range, h1]
  · have hnone : rawGet g i j = none := rawGet_oob hwf (fun hh => h1 hh.1)
    simp [List.mem_range, h1, hnone]

lemma toggle_cell_spec {g : Grid} (hwf : g.wf) (r c : Nat) :
    ∃ g', toggle_cell g r c = some g' ∧ g'.grid_size = g.grid_size ∧ g'.wf ∧
      ∀ i j, rawGet g' i j =
        if i = r ∧ j = c then (rawGet g i j).map CellState.next
        else rawGet g i j := by
  cases hcur : rawGet g r c with
  | none =>
    refine ⟨g, by simp [toggle_cell, hcur], rfl, hwf, ?_⟩
    intro i j
    by_cases hij : i = r ∧ j = c
    · obtain ⟨rfl, rfl⟩ := hij
      simp [hcur]
    · rw [if_neg hij]
  | some cur =>
    have hcur2 : (g.grid[r]?).bind (fun row => row[c]?) = some cur := by
      simpa [rawGet, List.get?_eq_getElem?] using hcur
    obtain ⟨row, hrow, hcell⟩ := Option.bind_eq_some.mp hcur2
    have hcl : c < row.length := (List.getElem?_eq_some.mp hcell).1
    have hset := grid_set_total hrow hcl cur.next
    obtain ⟨hsz, hsh, hpt⟩ := grid_set_spec hset
    refine ⟨_, ?_, hsz, wf_transfer hsz hsh hwf, ?_⟩
    · simp only [toggle_cell, hcur]
      exact hset
    · intro i j
      rw [hpt i j]
      by_cases hij : i = r ∧ j = c
      · obtain ⟨rfl, rfl⟩ := hij
        rw [if_pos ⟨rfl, rfl⟩, if_pos ⟨rfl, rfl⟩, hcur]
        rfl
      · rw [if_neg hij, if_neg hij]

lemma toggle_value_noop {g : Grid} {r c : Nat} {n : Int}
    (hv : rawGet g r c = some (.Value n)) : toggle_cell g r c = some g := by
  have hv2 : (g.grid[r]?).bind (fun row => row[c]?) = some (CellState.Value n) := by
    simpa [rawGet, List.get?_eq_getElem?] using hv
  obtain ⟨row, hrow, hcell⟩ := Option.bind_eq_some.mp hv2
  have hcl : c < row.length := (List.getElem?_eq_some.mp hcell).1
  have hset := grid_set_total hrow hcl (CellState.Value n).next
  simp only [toggle_cell, hv]
  rw [hset]
  have hrowfix : row.set c (CellState.Value n).next = row :=
    list_set_self _ _ _ hcell
  rw [hrowfix, list_set_self _ _ _ hrow]

lemma applyOp_spec {g g' : Grid} (hwf : g.wf) {op : Op}
    (h : applyOp g op = some g') :
    g'.grid_size = g.grid_size ∧ g'.wf ∧
      ∀ r c n, rawGet g r c = some (.Value n) →
        rawGet g' r c = some (.Value n) := by
  cases op with
  | toggle tr tc =>
    obtain ⟨g2, hg2, hsz, hwf2, hpt⟩ := toggle_cell_spec hwf tr tc
    rw [applyOp, hg2] at h
    have hge := Option.some.inj h
    subst hge
    refine ⟨hsz, hwf2, ?_⟩
    intro r c n hv
    rw [hpt r c]
    by_cases hij : r = tr ∧ c = tc
    · rw [if_pos hij, hv]
      rfl
    · rw [if_neg hij]
      exact hv
  | reset =>
    obtain ⟨g2, hg2, hsz, hwf2, hpt⟩ := reset_puzzle_spec hwf
    rw [applyOp, hg2] at h
    have hge := Option.some.inj h
    subst hge
    refine ⟨hsz, hwf2, ?_⟩
    intro r c n hv
    rw [hpt r c, hv]
    rfl

lemma runOps_spec (ops : List Op) :
    ∀ g g' : Grid, g.wf → runOps g ops = some g' →
      g'.grid_size = g.grid_size ∧ g'.wf ∧
        ∀ r c n, rawGet g r c = some (.Value n) →
          rawGet g' r c = some (.Value n) := by
  induction ops with
  | nil =>
    intro g g' hwf h
    simp only [runOps] at h
    have hge := Option.some.inj h
    subst hge
    exact ⟨rfl, hwf, fun r c n hv => hv⟩
  | cons op rest ih =>
    intro g g' hwf h
    simp only [runOps] at h
    cases hop : applyOp g op with
    | none => rw [hop] at h; cases h
    | some g1 =>
      rw [hop] at h
      simp only [Option.some_bind] at h
      obtain ⟨hsz1, hwf1, hval1⟩ := applyOp_spec hwf hop
      obtain ⟨hsz2, hwf2, hval2⟩ := ih g1 g' hwf1 h
      exact ⟨hsz2.trans hsz1, hwf2, fun r c n hv => hval2 r c n (hval1 r c n hv)⟩

lemma mem_rowMajor {sz : GridSize} {p : Nat × Nat} :
    p ∈ rowMajor sz ↔ p.1 < sz.rows ∧ p.2 < sz.cols := by
  obtain ⟨r, c⟩ := p
  constructor
  · intro h
    simp only [rowMajor, List.mem_flatMap, List.mem_map, List.mem_range] at h
    obtain ⟨a, ha, b, hb, heq⟩ := h
    obtain ⟨rfl, rfl⟩ := Prod.mk.injEq .. ▸ heq
    exact ⟨ha, hb⟩
  · intro ⟨hr, hc⟩
    simp only [rowMajor, List.mem_flatMap, List.mem_map, List.mem_range]
    exact ⟨r, hr, c, hc, rfl⟩

lemma checkLoop_true_iff (g s : Grid) (L : List (Nat × Nat)) :
    (∀ p ∈ L, (g.get p.1 p.2).isSome ∧ (s.get p.1 p.2).isSome) →
    (checkLoop g s L = some true ↔
      ∀ p ∈ L, ∃ a b, g.get p.1 p.2 = some a ∧ s.get p.1 p.2 = some b ∧
        a.is_same b = true) := by
  induction L with
  | nil =>
    intro _
    simp [checkLoop]
  | cons p rest ih =>
    intro hL
    obtain ⟨ha, hb⟩ := hL p (List.mem_cons_self p rest)
    obtain ⟨a, hae⟩ := Option.isSome_iff_exists.mp ha
    obtain ⟨b, hbe⟩ := Option.isSome_iff_exists.mp hb
    have hrest := ih (fun q hq => hL q (List.mem_cons_of_mem _ hq))
    simp only [checkLoop, hae, hbe, Option.bind_eq_bind, Option.some_bind]
    by_cases hsame : a.is_same b
    · rw [if_pos hsame, hrest]
      constructor
      · intro hall q hq
        rcases List.mem_cons.mp hq with rfl | hq2
        · exact ⟨a, b, hae, hbe, hsame⟩
        · exact hall q hq2
      · intro hall q hq
        exact hall q (List.mem_cons_of_mem _ hq)
    · rw [if_neg hsame]
      constructor
      · intro habs
        cases habs
      · intro hall
        obtain ⟨a', b', ha', hb', hs'⟩ := hall p (List.mem_cons_self p rest)
        rw [hae] at ha'
        rw [hbe] at hb'
        cases Option.some.inj ha'
        cases Option.some.inj hb'
        exact absurd hs' hsame

lemma checkLoop_isSome (g s : Grid) (L : List (Nat × Nat)) :
    (∀ p ∈ L, (g.get p.1 p.2).isSome ∧ (s.get p.1 p.2).isSome) →
    ∃ bl, checkLoop g s L = some bl := by
  induction L with
  | nil =>
    intro _
    exact ⟨true, rfl⟩
  | cons p rest ih =>
    intro hL
    obtain ⟨ha, hb⟩ := hL p (List.mem_cons_self p rest)
    obtain ⟨a, hae⟩ := Option.isSome_iff_exists.mp ha
    obtain ⟨b, hbe⟩ := Option.isSome_iff_exists.mp hb
    simp only [checkLoop, hae, hbe, Option.bind_eq_bind, Option.some_bind]
    by_cases hsame : a.is_same b
    · rw [if_pos hsame]
      exact ih (fun q hq => hL q (List.mem_cons_of_mem _ hq))
    · rw [if_neg hsame]
      exact ⟨false, rfl⟩

/-- C2: is_same treats Blank, Island and Value(n) as land-equivalent on the
left — for those the predicate holds iff the other cell is not River — and
when the left side is River it holds iff the other cell is exactly River. -/
theorem c2_is_same_land_water (a b : CellState) :
    ((a = .Blank ∨ a = .Island ∨ ∃ n, a = .Value n) →
      (a.is_same b = true ↔ b ≠ .River)) ∧
    (a = .River → (a.is_same b = true ↔ b = .River)) := by
  constructor
  · rintro (rfl | rfl | ⟨n, rfl⟩) <;> simp [CellState.is_same]
  · rintro rfl
    simp [CellState.is_same]

/-- Witness for c2_is_same_land_water at concrete cells. -/
theorem c2_is_same_land_water_witness :
    (CellState.is_same .Blank .Island = true ↔ CellState.Island ≠ .River) ∧
    (CellState.is_same .River .Blank = true ↔ CellState.Blank = .River) :=
  ⟨(c2_is_same_land_water .Blank .Island).1 (Or.inl rfl),
   (c2_is_same_land_water .River .Blank).2 rfl⟩

/-- C3: next maps Blank to River, River to Island, Island to Blank, fixes
every Value(n), and is a 3-cycle on the togglable states. -/
theorem c3_next_cycle :
    CellState.next .Blank = .River ∧
    CellState.next .River = .Island ∧
    CellState.next .Island = .Blank ∧
    (∀ n : Int, CellState.next (.Value n) = .Value n) ∧
    CellState.next (CellState.next (CellState.next .Blank)) = .Blank ∧
    CellState.next (CellState.next (CellState.next .Island)) = .Island ∧
    CellState.next (CellState.next (CellState.next .River)) = .River := by
  refine ⟨rfl, rfl, rfl, fun n => rfl, rfl, rfl, rfl⟩

/-- C1: counterexample evidence — the claim says get clamps into
[0, rows-1] x [0, cols-1] and never fails, but on the 2 x 3 grid parsed
from the solution text the call get 2 0 (row equal to rows) clamps the
index only to rows itself, still lands outside the container and fails
(None models the unwrap panic), instead of returning a last-row cell. -/
theorem c1_get_row_eq_rows_fails :
    Grid.from_solution_string ("1x.\nxx1") =
      some (Grid.mk (GridSize.mk 2 3)
        [[CellState.Value 1, .River, .Island], [.River, .River, .Value 1]]) ∧
    (Grid.mk (GridSize.mk 2 3)
      [[CellState.Value 1, .River, .Island], [.River, .River, .Value 1]]).get 2 0 = none ∧
    (Grid.mk (GridSize.mk 2 3)
      [[CellState.Value 1, .River, .Island], [.River, .River, .Value 1]]).get 0 3 = none := by
  refine ⟨by decide, by decide, by decide⟩

/-- C5: from_puzzle_string on the scenario text gives the 2-row, 3-column
grid with Value 2 at (0,0) and Blank elsewhere; whenever the dimension
line parses as cols,rows and no clue lines remain after the four skipped
lines, the result is the all-Blank grid of the declared size; and in full
generality, when every remaining line parses as a size,row,col triple
with in-range coordinates, the result places Value(size) at (row-1, col-1)
for each triple in order over the all-Blank grid. -/
theorem c5_from_puzzle_string :
    (Grid.from_puzzle_string ("#\n3,2\n\n\n2,1,1") =
      some (Grid.mk (GridSize.mk 2 3)
        [[CellState.Value 2, .Blank, .Blank], [.Blank, .Blank, .Blank]])) ∧
    (∀ (s : String) (cols rows : Nat) (dims : List Char),
      (rustLines s).get? 1 = some dims →
      ((splitOnChar ',' dims).get? 0).bind parseUsize = some cols →
      ((splitOnChar ',' dims).get? 1).bind parseUsize = some rows →
      (rustLines s).drop 4 = [] →
      Grid.from_puzzle_string s =
        some (Grid.mk (GridSize.mk rows cols)
          (List.replicate rows (List.replicate cols CellState.Blank)))) ∧
    ∀ (s : String) (cols rows : Nat) (dims : List Char)
      (clueLines : List (List Char)) (triples : List (Int × Int × Int)),
      (rustLines s).get? 1 = some dims →
      ((splitOnChar ',' dims).get? 0).bind parseUsize = some cols →
      ((splitOnChar ',' dims).get? 1).bind parseUsize = some rows →
      (rustLines s).drop 4 = clueLines →
      clueLines.map specParseTriple = triples.map some →
      (∀ t ∈ triples, 1 ≤ t.2.1 ∧ t.2.1 ≤ (rows : Int) ∧
        1 ≤ t.2.2 ∧ t.2.2 ≤ (cols : Int)) →
      Grid.from_puzzle_string s =
        some (Grid.mk (GridSize.mk rows cols)
          (triples.foldl specPlaceClue
            (List.replicate rows (List.replicate cols CellState.Blank)))) := by
  refine ⟨by decide, ?_, ?_⟩
  · intro s cols rows dims h1 h2 h3 h4
    simp only [List.get?_eq_getElem?] at h1 h2 h3
    simp [Grid.from_puzzle_string, h1, h2, h3, h4]
  · intro s cols rows dims clueLines triples h1 h2 h3 h4 hmap hbounds
    have hfold := foldlM_clueStep_eq_placeClues clueLines triples
      (List.replicate rows (List.replicate cols CellState.Blank)) hmap
      (by simp [shapeOf, List.map_replicate, List.length_replicate]) hbounds
    simp only [List.get?_eq_getElem?] at h1 h2 h3
    simp [Grid.from_puzzle_string, h1, h2, h3, h4, hfold]

/-- Witness for c5_from_puzzle_string: a puzzle text with zero clue lines
parses to the all-Blank 2 x 2 grid, and a two-clue puzzle text places both
Value clues at their decremented coordinates. -/
theorem c5_from_puzzle_string_witness :
    (Grid.from_puzzle_string ("#\n2,2") =
      some (Grid.mk (GridSize.mk 2 2)
        (List.replicate 2 (List.replicate 2 CellState.Blank)))) ∧
    (Grid.from_puzzle_string ("#\n3,2\n\n\n2,1,1\n1,2,3") =
      some (Grid.mk (GridSize.mk 2 3)
        [[CellState.Value 2, .Blank, .Blank], [.Blank, .Blank, .Value 1]])) := by
  constructor
  · exact c5_from_puzzle_string.2.1 ("#\n2,2") 2 2 (['2', ',', '2'])
      (by decide) (by decide) (by decide) (by decide)
  · have h := c5_from_puzzle_string.2.2 ("#\n3,2\n\n\n2,1,1\n1,2,3") 3 2
      (['3', ',', '2'])
      ([['2', ',', '1', ',', '1'], ['1', ',', '2', ',', '3']])
      ([(2, 1, 1), (1, 2, 3)])
      (by decide) (by decide) (by decide) (by decide) (by decide) (by decide)
    exact h.trans (by decide)

/-- C6: from_solution_string decodes a digit to Value, the letter x to
River and any other character to Island, takes rows from the line count
and cols from the first line, and on the scenario text yields the stated
2 x 3 grid. -/
theorem c6_from_solution_string :
    (Grid.from_solution_string ("1x.\nxx1") =
      some (Grid.mk (GridSize.mk 2 3)
        [[CellState.Value 1, .River, .Island], [.River, .River, .Value 1]])) ∧
    (∀ c : Char, c.isDigit = true →
      charToCell c = CellState.Value (Int.ofNat (c.toNat - 48))) ∧
    charToCell 'x' = CellState.River ∧
    (∀ c : Char, c.isDigit = false → c ≠ 'x' → charToCell c = CellState.Island) ∧
    ∀ (s : String) (first : List Char) (rest : List (List Char)),
      rustLines s = first :: rest →
      Grid.from_solution_string s =
        some (Grid.mk (GridSize.mk (first :: rest).length first.length)
          ((first :: rest).map (fun line => line.map charToCell))) := by
  refine ⟨by decide, ?_, by decide, ?_, ?_⟩
  · intro c h
    simp [charToCell, h]
  · intro c h1 h2
    simp [charToCell, h1, h2]
  · intro s first rest h
    simp [Grid.from_solution_string, h]

/-- Witness for c6_from_solution_string: a single-character solution text
parses to the 1 x 1 Island grid. -/
theorem c6_from_solution_string_witness :
    Grid.from_solution_string (".") =
      some (Grid.mk (GridSize.mk 1 1) [[CellState.Island]]) := by
  simpa using c6_from_solution_string.2.2.2.2 (".") (['.']) [] (by decide)

/-- C9 as stated is false: the ragged solution text lands a 2-line grid
whose declared size is 2 x 1 while its second row has 2 cells, so the
constructed container is not rectangular. -/
theorem c9_counterexample :
    Grid.from_solution_string (".\n..") =
      some (Grid.mk (GridSize.mk 2 1) [[CellState.Island], [.Island, .Island]]) ∧
    ¬ (Grid.mk (GridSize.mk 2 1) [[CellState.Island], [.Island, .Island]]).wf := by
  refine ⟨by decide, by decide⟩

/-- C9 amended: every grid from from_puzzle_string is rectangular, and a
grid from from_solution_string is rectangular provided every input line
has the first line's length (ragged lines defeat the invariant, as the
counterexample shows). -/
theorem c9_rectangular_amended :
    (∀ (s : String) (g : Grid), Grid.from_puzzle_string s = some g → g.wf) ∧
    (∀ (s : String) (g : Grid) (first : List Char) (rest : List (List Char)),
      rustLines s = first :: rest →
      (∀ line ∈ rest, line.length = first.length) →
      Grid.from_solution_string s = some g → g.wf) := by
  constructor
  · intro s g h
    exact from_puzzle_wf h
  · intro s g first rest hl hlen h
    rw [from_solution_spec hl] at h
    have hge := Option.some.inj h
    subst hge
    constructor
    · simp
    · intro row hrow
      simp only [List.mem_map] at hrow
      obtain ⟨line, hline, rfl⟩ := hrow
      simp only [List.length_map]
      rcases List.mem_cons.mp hline with rfl | hmem
      · rfl
      · exact hlen line hmem

/-- Witness for c9_rectangular_amended on both constructors. -/
theorem c9_rectangular_amended_witness :
    (Grid.mk (GridSize.mk 2 2) (List.replicate 2 (List.replicate 2 CellState.Blank))).wf ∧
    (Grid.mk (GridSize.mk 2 3)
      [[CellState.Value 1, .River, .Island], [.River, .River, .Value 1]]).wf := by
  constructor
  · exact c9_rectangular_amended.1 ("#\n2,2") _ (by decide)
  · exact c9_rectangular_amended.2 ("1x.\nxx1") _ (['1', 'x', '.'])
      ([['x', 'x', '1']]) (by decide) (by decide) (by decide)

/-- C10: is_same is symmetric, and holds exactly when both sides have the
same river/non-river classification. -/
theorem c10_is_same_symm (a b : CellState) :
    a.is_same b = b.is_same a ∧
    (a.is_same b = true ↔ (a = .River ↔ b = .River)) := by
  cases a <;> cases b <;> simp [CellState.is_same]

/-- C4: check returns false whenever the two sizes differ, regardless of
cell contents; with equal sizes (on well-formed grids) it always returns
some boolean and returns true exactly when every in-range coordinate pair
passes is_same. -/
theorem c4_check_spec (g s : Grid) (hg : g.wf) (hs : s.wf) :
    (g.grid_size ≠ s.grid_size → Grid.check g s = some false) ∧
    (g.grid_size = s.grid_size →
      (∃ b, Grid.check g s = some b) ∧
      (Grid.check g s = some true ↔
        ∀ r c, r < g.grid_size.rows → c < g.grid_size.cols →
          ∃ a b, g.get r c = some a ∧ s.get r c = some b ∧
            a.is_same b = true)) := by
  constructor
  · intro hne
    simp [Grid.check, hne]
  · intro heq
    have hbounds : ∀ p ∈ rowMajor g.grid_size,
        (g.get p.1 p.2).isSome ∧ (s.get p.1 p.2).isSome := by
      intro p hp
      obtain ⟨hr, hc⟩ := mem_rowMajor.mp hp
      constructor
      · rw [get_eq_rawGet hr hc]
        obtain ⟨st, hst⟩ := rawGet_some_of_wf hg hr hc
        simp [hst]
      · have hr2 : p.1 < s.grid_size.rows := by rw [← heq]; exact hr
        have hc2 : p.2 < s.grid_size.cols := by rw [← heq]; exact hc
        rw [get_eq_rawGet hr2 hc2]
        obtain ⟨st, hst⟩ := rawGet_some_of_wf hs hr2 hc2
        simp [hst]
    constructor
    · simp only [Grid.check, if_pos heq]
      exact checkLoop_isSome g s _ hbounds
    · simp only [Grid.check, if_pos heq]
      rw [checkLoop_true_iff g s _ hbounds]
      constructor
      · intro hall r c hr hc
        exact hall (r, c) (mem_rowMajor.mpr ⟨hr, hc⟩)
      · intro hall p hp
        obtain ⟨hr, hc⟩ := mem_rowMajor.mp hp
        exact hall p.1 p.2 hr hc

/-- Witness for c4_check_spec: a 1 x 1 grid checks true against itself. -/
theorem c4_check_spec_witness :
    Grid.check (Grid.mk (GridSize.mk 1 1) [[CellState.Blank]])
      (Grid.mk (GridSize.mk 1 1) [[CellState.Blank]]) = some true := by
  have h := (c4_check_spec (Grid.mk (GridSize.mk 1 1) [[CellState.Blank]])
    (Grid.mk (GridSize.mk 1 1) [[CellState.Blank]]) (by decide) (by decide)).2 rfl
  refine h.2.mpr ?_
  intro r c hr hc
  obtain rfl := Nat.lt_one_iff.mp hr
  obtain rfl := Nat.lt_one_iff.mp hc
  exact ⟨.Blank, .Blank, by decide, by decide, by decide⟩

/-- C7: reset_puzzle maps every togglable cell to Blank, leaves every
Value cell unchanged, keeps the grid size, and is idempotent. -/
theorem c7_reset_idempotent (g : Grid) (hwf : g.wf) :
    (resetCell .Blank = .Blank ∧ resetCell .Island = .Blank ∧
      resetCell .River = .Blank ∧ ∀ n : Int, resetCell (.Value n) = .Value n) ∧
    ∃ g', reset_puzzle g = some g' ∧ g'.grid_size = g.grid_size ∧
      (∀ r c st, rawGet g r c = some st → rawGet g' r c = some (resetCell st)) ∧
      reset_puzzle g' = some g' := by
  obtain ⟨g', h1, hsz, hwf', hpt⟩ := reset_puzzle_spec hwf
  refine ⟨⟨rfl, rfl, rfl, fun n => rfl⟩, g', h1, hsz, ?_, ?_⟩
  · intro r c st hst
    rw [hpt r c, hst]
    rfl
  · obtain ⟨g2, h2, hsz2, hwf2, hpt2⟩ := reset_puzzle_spec hwf'
    have hge : g2 = g' := by
      apply grid_ext hsz2 hwf2 hwf'
      intro r c
      rw [hpt2 r c, hpt r c, Option.map_map, resetCell_comp]
    rw [h2, hge]

/-- Witness for c7_reset_idempotent: resetting a River/Value grid blanks
the River and fixes the Value, and resetting again changes nothing. -/
theorem c7_reset_idempotent_witness :
    reset_puzzle (Grid.mk (GridSize.mk 1 2) [[CellState.River, .Value 3]]) =
      some (Grid.mk (GridSize.mk 1 2) [[CellState.Blank, .Value 3]]) ∧
    reset_puzzle (Grid.mk (GridSize.mk 1 2) [[CellState.Blank, .Value 3]]) =
      some (Grid.mk (GridSize.mk 1 2) [[CellState.Blank, .Value 3]]) := by
  obtain ⟨-, g', h1, -, -, hidem⟩ := c7_reset_idempotent
    (Grid.mk (GridSize.mk 1 2) [[CellState.River, .Value 3]]) (by decide)
  have hval : reset_puzzle (Grid.mk (GridSize.mk 1 2) [[CellState.River, .Value 3]]) =
      some (Grid.mk (GridSize.mk 1 2) [[CellState.Blank, .Value 3]]) := by decide
  have hg : g' = Grid.mk (GridSize.mk 1 2) [[CellState.Blank, .Value 3]] :=
    Option.some.inj (h1.symm.trans hval)
  subst hg
  exact ⟨h1, hidem⟩

/-- C8: across any sequence of toggle and reset operations every Value
cell keeps its value, and a toggle aimed at a Value cell leaves the grid
unchanged. -/
theorem c8_value_immutable (g g' : Grid) (ops : List Op) (hwf : g.wf)
    (h : runOps g ops = some g') :
    (∀ r c n, rawGet g r c = some (.Value n) →
      rawGet g' r c = some (.Value n)) ∧
    (∀ r c n, rawGet g r c = some (.Value n) →
      toggle_cell g r c = some g) :=
  ⟨(runOps_spec ops g g' hwf h).2.2, fun _ _ _ hv => toggle_value_noop hv⟩

/-- Witness for c8_value_immutable: after toggling a Blank, resetting and
toggling the clue itself, the Value 3 clue still reads Value 3, and the
clue toggle is a no-op. -/
theorem c8_value_immutable_witness :
    rawGet (Grid.mk (GridSize.mk 1 2) [[CellState.Value 3, .Blank]]) 0 0 =
      some (.Value 3) ∧
    toggle_cell (Grid.mk (GridSize.mk 1 2) [[CellState.Value 3, .Blank]]) 0 0 =
      some (Grid.mk (GridSize.mk 1 2) [[CellState.Value 3, .Blank]]) := by
  have h := c8_value_immutable
    (Grid.mk (GridSize.mk 1 2) [[CellState.Value 3, .Blank]])
    (Grid.mk (GridSize.mk 1 2) [[CellState.Value 3, .Blank]])
    ([Op.toggle 0 1, Op.reset, Op.toggle 0 0]) (by decide) (by decide)
  exact ⟨h.1 0 0 3 (by decide), h.2 0 0 3 (by decide)⟩
